import Mathlib

/-
Verification of the data loading, filtering and derived-metric pipeline of the
student performance analytics dashboard (src/app/app.py).

The dataframe is embedded shallowly: a frame is an ordered header of named,
typed columns together with a list of rows of cells.  Numeric cells hold exact
rationals (the float values of the source), text cells hold strings, and a
missing value (NaN in pandas) is the distinguished cell `Cell.null`.
Pandas operations used by the pipeline are translated one by one; every
definition carries a pointer to the source line it embeds.
-/

namespace StudentApp

/-- A cell of the dataframe: a numeric value (int64/float64 modelled as an
exact rational), a text value (object dtype), or a missing value (NaN). -/
inductive Cell where
  | num : ℚ → Cell
  | str : String → Cell
  | null : Cell
deriving DecidableEq

/-- Column dtype as pandas classifies it for select_dtypes: numeric
(int64/float64) or object (text). -/
inductive ColType where
  | numeric : ColType
  | text : ColType
deriving DecidableEq

/-- A parsed dataframe: ordered header of named, typed columns plus rows. -/
structure Frame where
  header : List (String × ColType)
  rows : List (List Cell)
deriving DecidableEq

/-- Position of a named column in the header, if present. -/
def colIdx (f : Frame) (c : String) : Option Nat :=
  f.header.findIdx? (fun p => p.1 == c)

/-- The value of row `r` in column `c`; out of range reads as missing. -/
def rowCell (f : Frame) (r : List Cell) (c : String) : Cell :=
  match colIdx f c with
  | some i => r.getD i Cell.null
  | none => Cell.null

/-- The column of a frame as the list of its cells, top to bottom. -/
def getCol (f : Frame) (c : String) : List Cell :=
  f.rows.map (fun r => rowCell f r c)

/-- data.select_dtypes(include=[object]).columns (source line 74): the
categorical columns, in header order. -/
def categoricalCols (f : Frame) : List String :=
  (f.header.filter (fun p => p.2 == ColType.text)).map Prod.fst

/-- select_dtypes(include=[int64, float64]).columns: the numeric columns. -/
def numericalCols (f : Frame) : List String :=
  (f.header.filter (fun p => p.2 == ColType.numeric)).map Prod.fst

/-- The numerical factor columns (source line 265): numeric dtype with the
outcome column Exam_Score excluded. -/
def numericalFactorCols (f : Frame) : List String :=
  (numericalCols f).filter (fun c => c != "Exam_Score")

/-- len(data[col].unique()) (source line 79): the number of distinct values
observed in a column, a missing value counting as one of the values. -/
def uniqueCount (f : Frame) (c : String) : Nat :=
  (getCol f c).dedup.length

/-- The columns the sidebar offers a filter selector for (source lines 78-79):
the loop runs over categorical_cols[:3] and keeps a column only when it has
fewer than 10 distinct values. -/
def offeredFilterCols (f : Frame) : List String :=
  ((categoricalCols f).take 3).filter (fun c => decide (uniqueCount f c < 10))

/-- One step of the filter loop (source line 90):
filtered_data[filtered_data[col].isin(selected_values)]. -/
def filterByCol (f : Frame) (c : String) (vals : List Cell) : Frame :=
  { f with rows := f.rows.filter (fun r => vals.contains (rowCell f r c)) }

/-- The filter loop over the selection mapping (source lines 87-90): starting
from a copy of the raw frame, each column with a non-empty chosen-values list
restricts the rows to those whose value is a member of the list. -/
def applyFilters (f : Frame) (sels : List (String × List Cell)) : Frame :=
  match sels with
  | [] => f
  | (c, vals) :: rest =>
      applyFilters (if vals.isEmpty then f else filterByCol f c vals) rest

/-- A rectangular frame: every row has exactly one cell per header column. -/
def Wf (f : Frame) : Prop := ∀ r ∈ f.rows, r.length = f.header.length

/-- Reading a cell as a number: NaN (missing or non-numeric) becomes none. -/
def cellNum : Cell → Option ℚ
  | Cell.num q => some q
  | Cell.str _ => none
  | Cell.null => none

/-- A numeric column of the frame with its missing values kept as none. -/
def numColOpt (f : Frame) (c : String) : List (Option ℚ) :=
  (getCol f c).map cellNum

/-- filtered_data[Exam_Score] read as a numeric series (source line 115). -/
def examScores (f : Frame) : List (Option ℚ) :=
  numColOpt f "Exam_Score"

/-- Series.mean with skipna (source line 115): the mean of the non-missing
values, and NaN (none) when no non-missing value exists. -/
def meanOpt (xs : List (Option ℚ)) : Option ℚ :=
  if (xs.filterMap id).length = 0 then none
  else some ((xs.filterMap id).sum / ((xs.filterMap id).length : ℚ))

/-- Series.min with skipna (source line 126): NaN (none) on no data. -/
def minOpt (xs : List (Option ℚ)) : Option ℚ :=
  match xs.filterMap id with
  | [] => none
  | v :: rest => some (rest.foldl min v)

/-- Series.max with skipna (source line 126): NaN (none) on no data. -/
def maxOpt (xs : List (Option ℚ)) : Option ℚ :=
  match xs.filterMap id with
  | [] => none
  | v :: rest => some (rest.foldl max v)

/-- Whether a possibly missing score passes the fixed threshold 60
(source line 119): the pandas comparison NaN >= 60 evaluates to False. -/
def passesThreshold (v : Option ℚ) : Bool :=
  match v with
  | some q => decide (60 ≤ q)
  | none => false

/-- Number of rows whose score is present and at least 60. -/
def passCount (xs : List (Option ℚ)) : Nat :=
  (xs.filter passesThreshold).length

/-- pass_rate (source lines 119-121): (scores >= 60).mean() * 100.  The
boolean series has one entry per row, False on a missing score, so the
denominator is the full row count; the mean of an empty series is NaN. -/
def passRate (xs : List (Option ℚ)) : Option ℚ :=
  if xs.length = 0 then none
  else some (((passCount xs : ℚ) / (xs.length : ℚ)) * 100)

/-- groupby keys (source line 226): the distinct non-missing values of the
grouping column; pandas groupby drops missing keys. -/
def groupKeys (f : Frame) (c : String) : List Cell :=
  ((getCol f c).filter (fun v => v != Cell.null)).dedup

/-- The order pandas groupby (sort=True) lists group keys in.  The grouping
columns of the dashboard have object dtype, so the keys are strings sorted
lexicographically; numeric keys sort numerically; a missing key never
reaches the sort (dropped before).  Keys of mixed kinds would raise a
TypeError in pandas, so their relative order here is an arbitrary fixed
convention. -/
def cellLeB : Cell → Cell → Bool
  | Cell.str a, Cell.str b => decide (a < b) || (a == b)
  | Cell.num a, Cell.num b => decide (a ≤ b)
  | Cell.num _, Cell.str _ => true
  | Cell.str _, Cell.num _ => false
  | Cell.null, _ => true
  | _, Cell.null => false

/-- The key order as a decidable relation for sorting. -/
def cellLe (a b : Cell) : Prop := cellLeB a b = true

instance : DecidableRel cellLe := fun a b => instDecidableEqBool (cellLeB a b) true

/-- The group keys in the order pandas groupby returns them (sorted). -/
def groupKeysSorted (f : Frame) (c : String) : List Cell :=
  List.insertionSort cellLe (groupKeys f c)

/-- groupby(cat)[Exam_Score].agg([mean, count]) (source line 226): one row
per group key, keys in pandas sorted key order, with the mean over the
non-missing scores of the group and the count of non-missing scores (pandas
count ignores NaN).  The presentation re-sort of the summary by mean
descending (source line 228) is not modelled; it changes no entry. -/
def groupMeans (f : Frame) (c : String) : List (Cell × Option ℚ × Nat) :=
  (groupKeysSorted f c).map (fun k =>
    let scores := (f.rows.filter (fun r => rowCell f r c == k)).map
      (fun r => cellNum (rowCell f r "Exam_Score"))
    (k, meanOpt scores, (scores.filterMap id).length))

/-- The mean of a list of rationals, as pandas computes it over the kept
observations of a correlation; the empty list gives the junk value 0, which
the callers below never use. -/
def listMean (l : List ℚ) : ℚ := l.sum / (l.length : ℚ)

/-- Centered sum of squares of a list of values. -/
def ssq (l : List ℚ) : ℚ := (l.map (fun x => (x - listMean l) ^ 2)).sum

/-- Centered sum of cross products of a list of paired values. -/
def sxy (ps : List (ℚ × ℚ)) : ℚ :=
  (ps.map (fun p =>
    (p.1 - listMean (ps.map Prod.fst)) * (p.2 - listMean (ps.map Prod.snd)))).sum

/-- The complete observations of a pair of series: pandas correlation keeps
exactly the rows where both values are present. -/
def completePairs (xs ys : List (Option ℚ)) : List (ℚ × ℚ) :=
  (xs.zip ys).filterMap (fun p =>
    match p with
    | (some a, some b) => some (a, b)
    | _ => none)

/-- Pearson correlation of paired observations as pandas nancorr computes it:
sxy / (sqrt(ssq x) * sqrt(ssq y)), and NaN (none) when the divisor is zero,
which happens exactly when either series has zero centered sum of squares
(constant series, a single observation, or no observations). -/
noncomputable def pearson (ps : List (ℚ × ℚ)) : Option ℝ :=
  if ssq (ps.map Prod.fst) = 0 ∨ ssq (ps.map Prod.snd) = 0 then none
  else some ((sxy ps : ℝ) /
    (Real.sqrt ((ssq (ps.map Prod.fst) : ℚ) : ℝ) *
     Real.sqrt ((ssq (ps.map Prod.snd) : ℚ) : ℝ)))

/-- Series.corr / one entry of DataFrame.corr (source lines 275 and 410):
Pearson correlation over the complete observations of the two columns. -/
noncomputable def corrOpt (xs ys : List (Option ℚ)) : Option ℝ :=
  pearson (completePairs xs ys)

/-- The columns of the correlation matrix (source line 410):
numerical_cols + [Exam_Score]. -/
def matrixCols (f : Frame) : List String :=
  numericalFactorCols f ++ ["Exam_Score"]

/-- Entry (i, j) of corr_matrix (source line 410). -/
noncomputable def corrMatrixEntry (f : Frame) (i j : Nat) : Option ℝ :=
  corrOpt (numColOpt f ((matrixCols f).getD i ""))
          (numColOpt f ((matrixCols f).getD j ""))

/-- categorize_performance (source lines 189-199): the five fixed bands,
evaluated top down. -/
def categorize_performance (score : ℚ) : String :=
  if score ≥ 90 then "Excellent (90-100)"
  else if score ≥ 80 then "Very Good (80-89)"
  else if score ≥ 70 then "Good (70-79)"
  else if score ≥ 60 then "Satisfactory (60-69)"
  else "Needs Improvement (<60)"

/-- The banding function applied through Series.apply (source line 201): a
missing score compares False against every threshold in pandas, so NaN is
labelled with the bottom band. -/
def categorizeCell (v : Option ℚ) : String :=
  match v with
  | some q => categorize_performance q
  | none => "Needs Improvement (<60)"

/-- The column assignment filtered_data[Performance_Category] = labels
(source line 201).  Pandas assignment overwrites the column in place when a
column of that name already exists and appends a new last column otherwise. -/
def addPerformanceCategory (f : Frame) : Frame :=
  match colIdx f "Performance_Category" with
  | some i =>
      { header := f.header.set i ("Performance_Category", ColType.text),
        rows := List.zipWith (fun r lab => r.set i (Cell.str lab))
          f.rows ((examScores f).map categorizeCell) }
  | none =>
      { header := f.header ++ [("Performance_Category", ColType.text)],
        rows := List.zipWith (fun r lab => r ++ [Cell.str lab])
          f.rows ((examScores f).map categorizeCell) }

/-- Outcome of parsing one candidate byte source: either a parsed frame or a
failure carrying the parser message.  For the remote source this also covers
a failed retrieval (source lines 44-52 wrap both in one try block). -/
inductive ParseOutcome where
  | parsed : Frame → ParseOutcome
  | failed : String → ParseOutcome

/-- The S3 branch of load_data (source lines 44-53): a successful fetch and
parse returns the frame, any failure returns None. -/
def remoteLoad : ParseOutcome → Option Frame
  | ParseOutcome.parsed d => some d
  | ParseOutcome.failed _ => none

/-- load_data (source lines 33-53): when an upload is present its parse is
tried first and a success returns immediately; a failed upload parse shows an
error and falls through to the S3 branch; with no upload the S3 branch runs
directly. -/
def load_data (upload : Option ParseOutcome) (remote : ParseOutcome) : Option Frame :=
  match upload with
  | some (ParseOutcome.parsed d) => some d
  | some (ParseOutcome.failed _) => remoteLoad remote
  | none => remoteLoad remote

/-- The main guard (source line 103): the analysis tabs are built only when a
frame was produced; with None every downstream stage is skipped. -/
def analysisRuns (loaded : Option Frame) : Bool := loaded.isSome

/-- A row of the correlation table corr_df (source lines 273-278): factor
name and correlation value, NaN as none.  Only the ordering of the values
matters to the Insight Selector, so the float coefficients are represented by
exact rationals. -/
abbrev CorrEntry := String × Option ℚ

/-- corr > 0 (source line 359): False on NaN. -/
def isPosB (v : Option ℚ) : Bool :=
  match v with
  | some q => decide (0 < q)
  | none => false

/-- corr < 0 (source line 360): False on NaN. -/
def isNegB (v : Option ℚ) : Bool :=
  match v with
  | some q => decide (q < 0)
  | none => false

/-- The order on enumerated rows that sort_values(Correlation,
ascending=False) realises on tables of AT MOST 16 entries: larger keys
first, NaN keys last (na_position last), ties in position order.  On such
tables numpy quicksort runs only its insertion-sort path, which is stable,
and pandas reverses the array on both sides of the argsort for descending
order, so ties keep the original order.  Beyond 16 entries the realised
order is the one of npArgsort below, whose partitioning is NOT tie-stable
(see the claim 8 counterexample), so this relation describes only the
small-table regime. -/
def descRelE (a b : Nat × CorrEntry) : Prop :=
  match a.2.2, b.2.2 with
  | some x, some y => y < x ∨ (x = y ∧ a.1 ≤ b.1)
  | some _, none => True
  | none, some _ => False
  | none, none => a.1 ≤ b.1

/-- The order on enumerated rows that sort_values(Correlation) ascending
(source line 360) realises on tables of AT MOST 16 entries: smaller keys
first, NaN keys last, ties in position order.  Like descRelE, this
describes only the small-table regime in which numpy quicksort is its
stable insertion-sort path. -/
def ascRelE (a b : Nat × CorrEntry) : Prop :=
  match a.2.2, b.2.2 with
  | some x, some y => x < y ∨ (x = y ∧ a.1 ≤ b.1)
  | some _, none => True
  | none, some _ => False
  | none, none => a.1 ≤ b.1

instance : DecidableRel descRelE := fun a b =>
  match a, b with
  | (i, _, some x), (j, _, some y) =>
      inferInstanceAs (Decidable (y < x ∨ (x = y ∧ i ≤ j)))
  | (_, _, some _), (_, _, none) => inferInstanceAs (Decidable True)
  | (_, _, none), (_, _, some _) => inferInstanceAs (Decidable False)
  | (i, _, none), (j, _, none) => inferInstanceAs (Decidable (i ≤ j))

instance : DecidableRel ascRelE := fun a b =>
  match a, b with
  | (i, _, some x), (j, _, some y) =>
      inferInstanceAs (Decidable (x < y ∨ (x = y ∧ i ≤ j)))
  | (_, _, some _), (_, _, none) => inferInstanceAs (Decidable True)
  | (_, _, none), (_, _, some _) => inferInstanceAs (Decidable False)
  | (i, _, none), (j, _, none) => inferInstanceAs (Decidable (i ≤ j))

/-- sort_values of a correlation table in the small-table regime (at most
16 entries), where the realised argsort is stable: stable argsort of the
enumerated rows by the given order, then the rows taken in that index
order.  For tables of arbitrary size the faithful embedding is
npSortValues below, built on the full numpy introsort; the two agree on
tables of at most 16 entries (checked on concrete tables at sizes 5 and 16
in np_agreement_5 and np_agreement_16). -/
def sortValuesBy (r : (Nat × CorrEntry) → (Nat × CorrEntry) → Prop)
    [DecidableRel r] (l : List CorrEntry) : List CorrEntry :=
  (List.insertionSort r l.enum).map Prod.snd

/-- corr_df.sort_values(Correlation, ascending=False) (source line 279). -/
def sortValuesDesc (l : List CorrEntry) : List CorrEntry :=
  sortValuesBy descRelE l

/-- sort_values(Correlation) ascending (source line 360). -/
def sortValuesAsc (l : List CorrEntry) : List CorrEntry :=
  sortValuesBy ascRelE l

/-- top_positive (source line 359): from the descending-sorted table, the
rows with positive correlation, first 3. -/
def top_positive (l : List CorrEntry) : List CorrEntry :=
  ((sortValuesDesc l).filter (fun e => isPosB e.2)).take 3

/-- top_negative (source line 360): from the descending-sorted table, the
rows with negative correlation, re-sorted ascending, first 3. -/
def top_negative (l : List CorrEntry) : List CorrEntry :=
  (sortValuesAsc ((sortValuesDesc l).filter (fun e => isNegB e.2))).take 3

/-- The ranking order the spec asks of the top-positive list: larger
coefficients first and ties in the order of the original table, located by
List.indexOf (well defined because factor names are distinct). -/
def rankDescRel (l : List CorrEntry) (a b : CorrEntry) : Prop :=
  match a.2, b.2 with
  | some x, some y => y < x ∨ (x = y ∧ l.indexOf a ≤ l.indexOf b)
  | some _, none => True
  | none, some _ => False
  | none, none => l.indexOf a ≤ l.indexOf b

/-- The ranking order the spec asks of the top-negative list: most negative
coefficients first and ties in the order of the original table. -/
def rankAscRel (l : List CorrEntry) (a b : CorrEntry) : Prop :=
  match a.2, b.2 with
  | some x, some y => x < y ∨ (x = y ∧ l.indexOf a ≤ l.indexOf b)
  | some _, none => True
  | none, some _ => False
  | none, none => l.indexOf a ≤ l.indexOf b

instance : IsTotal (Nat × CorrEntry) descRelE where
  total := by
    rintro ⟨i, a, x⟩ ⟨j, b, y⟩
    cases x <;> cases y <;> simp only [descRelE]
    · exact Nat.le_total i j
    · trivial
    · trivial
    · rename_i x y
      rcases lt_trichotomy x y with h | h | h
      · exact Or.inr (Or.inl h)
      · rcases Nat.le_total i j with hij | hij
        · exact Or.inl (Or.inr ⟨h, hij⟩)
        · exact Or.inr (Or.inr ⟨h.symm, hij⟩)
      · exact Or.inl (Or.inl h)

instance : IsTrans (Nat × CorrEntry) descRelE where
  trans := by
    rintro ⟨i, a, x⟩ ⟨j, b, y⟩ ⟨k, c, z⟩
    cases x <;> cases y <;> cases z <;> simp only [descRelE] <;>
      intro h1 h2 <;> try trivial
    · exact le_trans h1 h2
    · rcases h1 with h1 | ⟨h1e, h1i⟩ <;> rcases h2 with h2 | ⟨h2e, h2i⟩
      · exact Or.inl (lt_trans h2 h1)
      · exact Or.inl (h2e ▸ h1)
      · exact Or.inl (h1e.symm ▸ h2)
      · exact Or.inr ⟨h1e.trans h2e, le_trans h1i h2i⟩

instance : IsTotal (Nat × CorrEntry) ascRelE where
  total := by
    rintro ⟨i, a, x⟩ ⟨j, b, y⟩
    cases x <;> cases y <;> simp only [ascRelE]
    · exact Nat.le_total i j
    · trivial
    · trivial
    · rename_i x y
      rcases lt_trichotomy x y with h | h | h
      · exact Or.inl (Or.inl h)
      · rcases Nat.le_total i j with hij | hij
        · exact Or.inl (Or.inr ⟨h, hij⟩)
        · exact Or.inr (Or.inr ⟨h.symm, hij⟩)
      · exact Or.inr (Or.inl h)

instance : IsTrans (Nat × CorrEntry) ascRelE where
  trans := by
    rintro ⟨i, a, x⟩ ⟨j, b, y⟩ ⟨k, c, z⟩
    cases x <;> cases y <;> cases z <;> simp only [ascRelE] <;>
      intro h1 h2 <;> try trivial
    · exact le_trans h1 h2
    · rcases h1 with h1 | ⟨h1e, h1i⟩ <;> rcases h2 with h2 | ⟨h2e, h2i⟩
      · exact Or.inl (lt_trans h1 h2)
      · exact Or.inl (h2e ▸ h1)
      · exact Or.inl (h1e ▸ h2)
      · exact Or.inr ⟨h1e.trans h2e, le_trans h1i h2i⟩

/-- v[tosort[k]]: the key of the index stored at position k of the argsort
index array. -/
def keyAt (v : List ℚ) (t : List Nat) (k : Nat) : ℚ := v.getD (t.getD k 0) 0

/-- INTP_SWAP of two positions of the index array. -/
def lswap (t : List Nat) (a b : Nat) : List Nat :=
  let x := t.getD a 0
  let y := t.getD b 0
  (t.set a y).set b x

/-- do ++pi while (v[tosort[pi]] < vp) of the numpy partition scan, started
at the already incremented position; the fuel bounds the scan, which the
pivot sentinel stops within the segment. -/
def scanUp (v : List ℚ) (t : List Nat) (vp : ℚ) : Nat → Nat → Nat
  | 0, pi => pi
  | fuel + 1, pi => if keyAt v t pi < vp then scanUp v t vp fuel (pi + 1) else pi

/-- do --pj while (vp < v[tosort[pj]]) of the numpy partition scan. -/
def scanDown (v : List ℚ) (t : List Nat) (vp : ℚ) : Nat → Nat → Nat
  | 0, pj => pj
  | fuel + 1, pj => if vp < keyAt v t pj then scanDown v t vp fuel (pj - 1) else pj

/-- The inner swap loop of the numpy quicksort partition: scan up from pi,
scan down from pj, swap and repeat until the scans cross; returns the index
array and the crossing position pi. -/
def partLoop (v : List ℚ) (vp : ℚ) : Nat → List Nat → Nat → Nat → List Nat × Nat
  | 0, t, pi, _ => (t, pi)
  | fuel + 1, t, pi, pj =>
      let pi2 := scanUp v t vp (v.length + 2) (pi + 1)
      let pj2 := scanDown v t vp (v.length + 2) (pj - 1)
      if pi2 ≥ pj2 then (t, pi2)
      else partLoop v vp fuel (lswap t pi2 pj2) pi2 pj2

/-- The shift loop of the numpy argsort insertion sort: move entries one
place right while the inserted key is strictly below them; a tied entry is
never moved, which is what makes the small-table path stable. -/
def insShift (v : List ℚ) (vp : ℚ) (pl : Nat) : Nat → List Nat → Nat → List Nat × Nat
  | 0, t, pj => (t, pj)
  | fuel + 1, t, pj =>
      if pj > pl ∧ vp < keyAt v t (pj - 1) then
        insShift v vp pl fuel (t.set pj (t.getD (pj - 1) 0)) (pj - 1)
      else (t, pj)

/-- The numpy argsort insertion sort over the segment pl..pr, run on every
segment of at most 16 indices (and so on every whole array of at most 16
keys). -/
def insSeg (v : List ℚ) (pl pr : Nat) : Nat → List Nat → Nat → List Nat
  | 0, t, _ => t
  | fuel + 1, t, pi =>
      if pi > pr then t
      else
        let vi := t.getD pi 0
        let vp := v.getD vi 0
        let sh := insShift v vp pl (v.length + 2) t pi
        insSeg v pl pr fuel (sh.1.set sh.2 vi) (pi + 1)

/-- The sift loop shared by both phases of numpy aheapsort, on the
one-based view a[k] = tosort[base + k - 1]; returns the index array and the
final hole position i. -/
def heapSift (v : List ℚ) (base n tmp : Nat) : Nat → List Nat → Nat → Nat → List Nat × Nat
  | 0, t, i, _ => (t, i)
  | fuel + 1, t, i, j =>
      if j ≤ n then
        let j2 := if j < n ∧ keyAt v t (base + j - 1) < keyAt v t (base + j) then j + 1 else j
        if v.getD tmp 0 < keyAt v t (base + j2 - 1) then
          heapSift v base n tmp fuel
            (t.set (base + i - 1) (t.getD (base + j2 - 1) 0)) j2 (j2 + j2)
        else (t, i)
      else (t, i)

/-- The heap construction phase of numpy aheapsort. -/
def heapBuild (v : List ℚ) (base n : Nat) : Nat → List Nat → Nat → List Nat
  | 0, t, _ => t
  | fuel + 1, t, l =>
      if l = 0 then t
      else
        let tmp := t.getD (base + l - 1) 0
        let s := heapSift v base n tmp (v.length + 2) t l (l + l)
        heapBuild v base n fuel (s.1.set (base + s.2 - 1) tmp) (l - 1)

/-- The teardown phase of numpy aheapsort. -/
def heapTear (v : List ℚ) (base : Nat) : Nat → List Nat → Nat → List Nat
  | 0, t, _ => t
  | fuel + 1, t, n =>
      if n ≤ 1 then t
      else
        let tmp := t.getD (base + n - 1) 0
        let t2 := t.set (base + n - 1) (t.getD base 0)
        let n2 := n - 1
        let s := heapSift v base n2 tmp (v.length + 2) t2 1 2
        heapTear v base fuel (s.1.set (base + s.2 - 1) tmp) n2

/-- numpy aheapsort on the segment pl..pr of the index array: the fallback
the introsort switches to once its partition budget is exhausted. -/
def aheapsortSeg (v : List ℚ) (t : List Nat) (pl pr : Nat) : List Nat :=
  let n := pr - pl + 1
  heapTear v pl (v.length + 2) (heapBuild v pl n (v.length + 2) t (n / 2)) n

/-- numpy npysort aquicksort_, the argsort behind kind=quicksort for float
keys (after pandas has removed the NaN entries): an introsort on the index
array.  Segments longer than 16 indices (pr - pl > 15 = SMALL_QUICKSORT)
are partitioned with a median-of-three pivot parked just before the right
end and a crossing-scan swap loop, the larger half is pushed on an explicit
stack and the smaller half is iterated; shorter segments are finished with
the stable insertion sort above; and once the total partition count exceeds
twice the most significant bit of the length the current segment falls back
to heapsort.  The partitioning swaps equal keys across the pivot, which is
why this sort is NOT stable beyond 16 entries.  The C loop counters become
fuel arguments, each ample for the loop bounds of the algorithm. -/
def introSort (v : List ℚ) : Nat → List Nat → Nat → Nat → List (Nat × Nat) → Int → List Nat
  | 0, t, _, _, _, _ => t
  | fuel + 1, t, pl, pr, stk, depth =>
      if pr - pl > 15 then
        if depth < 0 then
          let t2 := aheapsortSeg v t pl pr
          match stk with
          | [] => t2
          | (a, b) :: rest => introSort v fuel t2 a b rest (depth - 1)
        else
          let pm := pl + (pr - pl) / 2
          let t1 := if keyAt v t pm < keyAt v t pl then lswap t pm pl else t
          let t2 := if keyAt v t1 pr < keyAt v t1 pm then lswap t1 pr pm else t1
          let t3 := if keyAt v t2 pm < keyAt v t2 pl then lswap t2 pm pl else t2
          let vp := keyAt v t3 pm
          let t4 := lswap t3 pm (pr - 1)
          let pp := partLoop v vp (v.length + 2) t4 pl (pr - 1)
          let t6 := lswap pp.1 pp.2 (pr - 1)
          let pi := pp.2
          if pi - pl < pr - pi then
            introSort v fuel t6 pl (pi - 1) ((pi + 1, pr) :: stk) (depth - 1)
          else
            introSort v fuel t6 (pi + 1) pr ((pl, pi - 1) :: stk) (depth - 1)
      else
        let t2 := insSeg v pl pr (v.length + 2) t (pl + 1)
        match stk with
        | [] => t2
        | (a, b) :: rest => introSort v fuel t2 a b rest depth

/-- npy_get_msb: the position of the most significant bit, by fuel. -/
def npMsb : Nat → Nat → Nat
  | 0, _ => 0
  | fuel + 1, n => if n ≤ 1 then 0 else npMsb fuel (n / 2) + 1

/-- np.argsort(kind=quicksort) of a NaN-free key array: the introsort run
on the identity index array with the partition budget 2 * msb(length). -/
def npArgsort (v : List ℚ) : List Nat :=
  introSort v (4 * v.length + 64) (List.range v.length) 0 (v.length - 1) []
    (2 * (npMsb v.length v.length : Int))

/-- pandas nargsort, the indexer sort_values computes for one key column:
the NaN entries are masked out; for a descending sort both the remaining
keys and their original indices are reversed before the numpy argsort and
the resulting indexer is reversed after it (which restores original order
among ties exactly when the argsort is stable); the NaN positions are then
appended (na_position last). -/
def nargsortQ (ks : List (Option ℚ)) (ascending : Bool) : List Nat :=
  let idx := List.range ks.length
  let nonNanIdx0 := idx.filter (fun i => (ks.getD i none).isSome)
  let nanIdx := idx.filter (fun i => !(ks.getD i none).isSome)
  let nonNanIdx := if ascending then nonNanIdx0 else nonNanIdx0.reverse
  let nonNans := nonNanIdx.map (fun i => (ks.getD i none).getD 0)
  let srt := npArgsort nonNans
  let indexer := srt.map (fun s => nonNanIdx.getD s 0)
  (if ascending then indexer else indexer.reverse) ++ nanIdx

/-- corr_df.sort_values(Correlation, ascending) for a table of any size:
the rows taken in nargsort indexer order.  This is the full-range embedding
of the sort of source lines 279 and 360. -/
def npSortValues (l : List CorrEntry) (ascending : Bool) : List CorrEntry :=
  (nargsortQ (l.map Prod.snd) ascending).map (fun i => l.getD i ("", none))

/-- top_positive (source line 359) over the full-range sort embedding. -/
def np_top_positive (l : List CorrEntry) : List CorrEntry :=
  ((npSortValues l false).filter (fun e => isPosB e.2)).take 3

/-- top_negative (source line 360) over the full-range sort embedding. -/
def np_top_negative (l : List CorrEntry) : List CorrEntry :=
  (npSortValues ((npSortValues l false).filter (fun e => isNegB e.2)) true).take 3

/-- A rational given directly in lowest terms by the Rat constructor, so
that kernel evaluation of comparisons on it never has to normalize. -/
def mkq (n : Int) (d : Nat) (h1 : d ≠ 0) (h2 : n.natAbs.Coprime d) : ℚ :=
  Rat.mk' n d h1 h2

/-- A concrete raw frame used to exercise the filter pipeline. -/
def exFrame : Frame :=
  { header := [("Gender", ColType.text), ("School_Type", ColType.text),
               ("Exam_Score", ColType.numeric)],
    rows := [[Cell.str "Male", Cell.str "Public", Cell.num 85],
             [Cell.str "Female", Cell.str "Public", Cell.num 55],
             [Cell.str "Female", Cell.str "Private", Cell.num 72],
             [Cell.str "Male", Cell.str "Private", Cell.num 95]] }

/-- A concrete filter selection on the frame above. -/
def exSels : List (String × List Cell) :=
  [("Gender", [Cell.str "Female"]), ("School_Type", [])]

/-- A frame with four small categorical columns: column d is categorical with
one distinct value, yet outside the first three categorical columns. -/
def c2Frame : Frame :=
  { header := [("a", ColType.text), ("b", ColType.text),
               ("c", ColType.text), ("d", ColType.text)],
    rows := [[Cell.str "x", Cell.str "x", Cell.str "x", Cell.str "x"]] }

/-- A one-row frame on which a filter selection can exclude every row. -/
def c3Frame : Frame :=
  { header := [("Gender", ColType.text), ("Exam_Score", ColType.numeric)],
    rows := [[Cell.str "Male", Cell.num 70]] }

/-- A selection whose conjunction excludes all rows of c3Frame. -/
def c3Sels : List (String × List Cell) :=
  [("Gender", [Cell.str "Female"])]

/-- A frame with two numerical factor columns (so the source computes the
correlation matrix) whose first factor column X is constant. -/
def c5Frame : Frame :=
  { header := [("X", ColType.numeric), ("Y", ColType.numeric),
               ("Exam_Score", ColType.numeric)],
    rows := [[Cell.num 5, Cell.num 1, Cell.num 70],
             [Cell.num 5, Cell.num 2, Cell.num 80]] }

/-- The ten-row outcome column of the pass-rate acceptance test. -/
def ex10 : List (Option ℚ) :=
  [some 50, some 55, some 60, some 65, some 70,
   some 75, some 80, some 85, some 90, some 95]

/-- An outcome column with a missing value, for the pass-rate missing-value
behaviour. -/
def exMissing : List (Option ℚ) := [some 90, none, some 30]

/-- A frame whose source already contains a column named
Performance_Category. -/
def c9Frame : Frame :=
  { header := [("Exam_Score", ColType.numeric),
               ("Performance_Category", ColType.text)],
    rows := [[Cell.num 95, Cell.str "original"]] }

/-- A frame without a Performance_Category column. -/
def c9FrameOk : Frame :=
  { header := [("Exam_Score", ColType.numeric), ("Gender", ColType.text)],
    rows := [[Cell.num 95, Cell.str "Male"], [Cell.num 42, Cell.str "Female"]] }

/-- A concrete correlation table with a tie between factors A and B (both
1/2), two negative factors and a NaN. -/
def c8Table : List CorrEntry :=
  [("A", some (mkq 1 2 (by norm_num) (by norm_num))),
   ("B", some (mkq 1 2 (by norm_num) (by norm_num))),
   ("C", some (mkq (-1) 4 (by norm_num) (by norm_num))),
   ("D", some (mkq (-3) 4 (by norm_num) (by norm_num))),
   ("E", none)]

/-- A 17-entry correlation table: factor k has coefficient (k+1)/20 except
that f0 and f2 are raised to 4/5, so f0, f2 and f15 are tied at 4/5; all
coefficients are positive and within the correlation range. -/
def c8Big : List CorrEntry :=
  [("f0", some (mkq 4 5 (by norm_num) (by norm_num))),
   ("f1", some (mkq 1 10 (by norm_num) (by norm_num))),
   ("f2", some (mkq 4 5 (by norm_num) (by norm_num))),
   ("f3", some (mkq 1 5 (by norm_num) (by norm_num))),
   ("f4", some (mkq 1 4 (by norm_num) (by norm_num))),
   ("f5", some (mkq 3 10 (by norm_num) (by norm_num))),
   ("f6", some (mkq 7 20 (by norm_num) (by norm_num))),
   ("f7", some (mkq 2 5 (by norm_num) (by norm_num))),
   ("f8", some (mkq 9 20 (by norm_num) (by norm_num))),
   ("f9", some (mkq 1 2 (by norm_num) (by norm_num))),
   ("f10", some (mkq 11 20 (by norm_num) (by norm_num))),
   ("f11", some (mkq 3 5 (by norm_num) (by norm_num))),
   ("f12", some (mkq 13 20 (by norm_num) (by norm_num))),
   ("f13", some (mkq 7 10 (by norm_num) (by norm_num))),
   ("f14", some (mkq 3 4 (by norm_num) (by norm_num))),
   ("f15", some (mkq 4 5 (by norm_num) (by norm_num))),
   ("f16", some (mkq 17 20 (by norm_num) (by norm_num)))]

/-- A 16-entry correlation table with ties among positives and negatives, a
zero and a NaN, at the boundary of the stable regime. -/
def c8Mid : List CorrEntry :=
  [("g0", some (mkq 3 4 (by norm_num) (by norm_num))),
   ("g1", some (mkq (-1) 2 (by norm_num) (by norm_num))),
   ("g2", some (mkq 3 4 (by norm_num) (by norm_num))),
   ("g3", none),
   ("g4", some (mkq 1 4 (by norm_num) (by norm_num))),
   ("g5", some (mkq (-1) 2 (by norm_num) (by norm_num))),
   ("g6", some 1),
   ("g7", some (mkq 3 4 (by norm_num) (by norm_num))),
   ("g8", some (mkq (-3) 4 (by norm_num) (by norm_num))),
   ("g9", some 0),
   ("g10", some (mkq 1 4 (by norm_num) (by norm_num))),
   ("g11", some (mkq (-1) 2 (by norm_num) (by norm_num))),
   ("g12", some (mkq 1 2 (by norm_num) (by norm_num))),
   ("g13", some (mkq (-1) 4 (by norm_num) (by norm_num))),
   ("g14", some (mkq 1 2 (by norm_num) (by norm_num))),
   ("g15", some (mkq 1 4 (by norm_num) (by norm_num)))]

theorem filterByCol_header (f : Frame) (c : String) (vals : List Cell) :
    (filterByCol f c vals).header = f.header := rfl

theorem rowCell_filterByCol (f : Frame) (c : String) (vals : List Cell)
    (r : List Cell) (x : String) :
    rowCell (filterByCol f c vals) r x = rowCell f r x := rfl

theorem applyFilters_header (f : Frame) (sels : List (String × List Cell)) :
    (applyFilters f sels).header = f.header := by
  induction sels generalizing f with
  | nil => rfl
  | cons p rest ih =>
    obtain ⟨c, vals⟩ := p
    show (applyFilters (if vals.isEmpty then f else filterByCol f c vals) rest).header
        = f.header
    rw [ih]
    by_cases h : vals.isEmpty <;> simp [h, filterByCol]

theorem rowCell_applyFilters (f : Frame) (sels : List (String × List Cell))
    (r : List Cell) (x : String) :
    rowCell (applyFilters f sels) r x = rowCell f r x := by
  unfold rowCell colIdx
  rw [applyFilters_header]

theorem applyFilters_rows (f : Frame) (sels : List (String × List Cell)) :
    (applyFilters f sels).rows = f.rows.filter
      (fun r => sels.all (fun p => p.2.isEmpty || p.2.contains (rowCell f r p.1))) := by
  induction sels generalizing f with
  | nil => simp [applyFilters]
  | cons p rest ih =>
    obtain ⟨c, vals⟩ := p
    show (applyFilters (if vals.isEmpty then f else filterByCol f c vals) rest).rows = _
    by_cases h : vals.isEmpty
    · rw [if_pos h, ih]
      apply List.filter_congr
      intro r _
      simp [h]
    · rw [if_neg h, ih]
      show ((f.rows.filter (fun r => vals.contains (rowCell f r c))).filter
          (fun r => rest.all (fun p => p.2.isEmpty ||
            p.2.contains (rowCell (filterByCol f c vals) r p.1)))) = _
      rw [List.filter_filter]
      apply List.filter_congr
      intro r _
      simp only [rowCell_filterByCol, List.all_cons, h]
      rw [Bool.and_comm]
      simp

theorem applyFilters_sub (f : Frame) (sels : List (String × List Cell)) :
    ∀ r ∈ (applyFilters f sels).rows, r ∈ f.rows := by
  intro r hr
  rw [applyFilters_rows] at hr
  exact List.mem_of_mem_filter hr

theorem applyFilters_length_le (f : Frame) (sels : List (String × List Cell)) :
    (applyFilters f sels).rows.length ≤ f.rows.length := by
  rw [applyFilters_rows]
  exact List.length_filter_le _ _

theorem applyFilters_of_all_empty (f : Frame) (sels : List (String × List Cell))
    (h : ∀ p ∈ sels, p.2 = []) : applyFilters f sels = f := by
  induction sels generalizing f with
  | nil => rfl
  | cons p rest ih =>
    obtain ⟨c, vals⟩ := p
    have hv : vals = [] := h (c, vals) (List.mem_cons_self _ _)
    show applyFilters (if vals.isEmpty then f else filterByCol f c vals) rest = f
    rw [hv]
    exact ih f (fun q hq => h q (List.mem_cons_of_mem _ hq))

theorem mem_applyFilters (f : Frame) (sels : List (String × List Cell))
    (r : List Cell) :
    r ∈ (applyFilters f sels).rows ↔
      r ∈ f.rows ∧ ∀ p ∈ sels, p.2 ≠ [] → rowCell f r p.1 ∈ p.2 := by
  rw [applyFilters_rows, List.mem_filter]
  constructor
  · rintro ⟨hr, hall⟩
    refine ⟨hr, ?_⟩
    intro p hp hne
    rw [List.all_eq_true] at hall
    have := hall p hp
    rcases Bool.or_eq_true_iff.mp this with h1 | h2
    · exact absurd (List.isEmpty_iff.mp h1) hne
    · simpa using h2
  · rintro ⟨hr, hall⟩
    refine ⟨hr, ?_⟩
    rw [List.all_eq_true]
    intro p hp
    by_cases he : p.2 = []
    · simp [he]
    · simp [hall p hp he]

/-- Claim C1: the Filter Engine keeps a row exactly when, for every column
carrying a non-empty chosen-values list, the value of the row in that column
is a member of the list (conjunction across columns); the columns are kept
unchanged, the filtered row count is at most the raw row count, every
filtered row is a row of the raw frame, and an all-empty selection returns
the raw frame itself. -/
theorem claim1_filter_engine (f : Frame) (sels : List (String × List Cell)) :
    (applyFilters f sels).header = f.header ∧
    (∀ r, r ∈ (applyFilters f sels).rows ↔
      r ∈ f.rows ∧ ∀ p ∈ sels, p.2 ≠ [] → rowCell f r p.1 ∈ p.2) ∧
    (applyFilters f sels).rows.length ≤ f.rows.length ∧
    (∀ r ∈ (applyFilters f sels).rows, r ∈ f.rows) ∧
    ((∀ p ∈ sels, p.2 = []) → applyFilters f sels = f) :=
  ⟨applyFilters_header f sels, mem_applyFilters f sels,
   applyFilters_length_le f sels, applyFilters_sub f sels,
   applyFilters_of_all_empty f sels⟩

/-- Claim C1 witness at a concrete frame and selection. -/
theorem claim1_witness :
    (applyFilters exFrame exSels).rows.length ≤ exFrame.rows.length :=
  (claim1_filter_engine exFrame exSels).2.2.1

/-- Claim C2 counterexample: column d of c2Frame is categorical with a single
distinct value, yet it is not offered a selector, because the source loop
only visits the first three categorical columns. -/
theorem claim2_counterexample :
    "d" ∈ categoricalCols c2Frame ∧ uniqueCount c2Frame "d" < 10 ∧
    "d" ∉ offeredFilterCols c2Frame := by decide

/-- Claim C2 amended: a categorical column is offered a chosen-values
selector iff it is among the first three categorical columns and has fewer
than 10 distinct values. -/
theorem claim2_eligibility (f : Frame) (c : String) :
    c ∈ offeredFilterCols f ↔
      c ∈ (categoricalCols f).take 3 ∧ uniqueCount f c < 10 := by
  simp [offeredFilterCols, List.mem_filter]

/-- Claim C2 witness at a concrete frame. -/
theorem claim2_witness : "a" ∈ offeredFilterCols c2Frame :=
  (claim2_eligibility c2Frame "a").mpr (by decide)

/-- Claim C4: the five bands of categorize_performance, with the listed
boundary scores. -/
theorem claim4_categorize (s : ℚ) :
    (90 ≤ s → categorize_performance s = "Excellent (90-100)") ∧
    (80 ≤ s → s < 90 → categorize_performance s = "Very Good (80-89)") ∧
    (70 ≤ s → s < 80 → categorize_performance s = "Good (70-79)") ∧
    (60 ≤ s → s < 70 → categorize_performance s = "Satisfactory (60-69)") ∧
    (s < 60 → categorize_performance s = "Needs Improvement (<60)") ∧
    [59, 60, 69, 70, 79, 80, 89, 90, 100].map categorize_performance =
      ["Needs Improvement (<60)", "Satisfactory (60-69)", "Satisfactory (60-69)",
       "Good (70-79)", "Good (70-79)", "Very Good (80-89)", "Very Good (80-89)",
       "Excellent (90-100)", "Excellent (90-100)"] := by
  refine ⟨?_, ?_, ?_, ?_, ?_, ?_⟩
  · intro h
    unfold categorize_performance
    rw [if_pos (by exact h)]
  · intro h1 h2
    unfold categorize_performance
    rw [if_neg (by simp; linarith), if_pos (by exact h1)]
  · intro h1 h2
    unfold categorize_performance
    rw [if_neg (by simp; linarith), if_neg (by simp; linarith), if_pos (by exact h1)]
  · intro h1 h2
    unfold categorize_performance
    rw [if_neg (by simp; linarith), if_neg (by simp; linarith),
      if_neg (by simp; linarith), if_pos (by exact h1)]
  · intro h
    unfold categorize_performance
    rw [if_neg (by simp; linarith), if_neg (by simp; linarith),
      if_neg (by simp; linarith), if_neg (by simp; linarith)]
  · decide

/-- Claim C4 witness at score 95. -/
theorem claim4_witness : categorize_performance 95 = "Excellent (90-100)" :=
  (claim4_categorize 95).1 (by norm_num)

/-- Claim C6: the pass rate is the fraction of rows whose score passes the
fixed threshold 60, as a percentage, and on the ten-row acceptance column it
is exactly 80. -/
theorem claim6_pass_rate :
    (∀ xs : List (Option ℚ), xs ≠ [] →
      passRate xs = some (((passCount xs : ℚ) / (xs.length : ℚ)) * 100)) ∧
    passRate ex10 = some 80 := by
  constructor
  · intro xs h
    unfold passRate
    rw [if_neg (by simpa using h)]
  · norm_num [passRate, ex10, passCount, passesThreshold]

/-- Claim C6 witness on the acceptance column. -/
theorem claim6_witness :
    passRate ex10 = some (((passCount ex10 : ℚ) / (ex10.length : ℚ)) * 100) :=
  claim6_pass_rate.1 ex10 (by decide)

theorem passCount_filterMap (xs : List (Option ℚ)) :
    passCount xs = ((xs.filterMap id).filter (fun q => decide (60 ≤ q))).length := by
  induction xs with
  | nil => rfl
  | cons v t ih =>
    cases v with
    | none => simpa [passCount, passesThreshold] using ih
    | some q =>
      by_cases h : (60 : ℚ) ≤ q <;>
        simp [passCount, passesThreshold, h] at ih ⊢ <;> try omega

theorem passCount_fill (xs : List (Option ℚ)) :
    passCount (xs.map (fun v => some (v.getD 0))) = passCount xs := by
  induction xs with
  | nil => rfl
  | cons v t ih =>
    cases v with
    | none =>
      have : passesThreshold (some ((0 : ℚ))) = false := by
        simp only [passesThreshold, decide_eq_false_iff_not]
        norm_num
      simpa [passCount, passesThreshold, this] using ih
    | some q =>
      by_cases h : (60 : ℚ) ≤ q <;>
        simp [passCount, passesThreshold, h, Option.getD] at ih ⊢ <;> try omega

/-- Claim C10: a missing score is counted in the denominator of the pass rate
but never in the numerator, so the pass rate is exactly the one obtained by
replacing every missing score with a failing score. -/
theorem claim10_missing_scores (xs : List (Option ℚ)) :
    passCount xs = ((xs.filterMap id).filter (fun q => decide (60 ≤ q))).length ∧
    passRate xs = passRate (xs.map (fun v => some (v.getD 0))) := by
  refine ⟨passCount_filterMap xs, ?_⟩
  unfold passRate
  rw [List.length_map, passCount_fill]

/-- Claim C10 witness on a column with a missing score. -/
theorem claim10_witness :
    passRate exMissing = passRate (exMissing.map (fun v => some (v.getD 0))) :=
  (claim10_missing_scores exMissing).2

/-- Claim C7: a successful upload parse wins; a failed upload parse is
non-fatal and the loader behaves as if no upload were given; without an
upload a successful remote fetch-and-parse returns its frame; any remote
failure returns no frame, which skips every downstream stage. -/
theorem claim7_loader :
    (∀ (d : Frame) (r : ParseOutcome),
      load_data (some (ParseOutcome.parsed d)) r = some d) ∧
    (∀ (m : String) (r : ParseOutcome),
      load_data (some (ParseOutcome.failed m)) r = load_data none r) ∧
    (∀ d : Frame, load_data none (ParseOutcome.parsed d) = some d) ∧
    (∀ m : String, load_data none (ParseOutcome.failed m) = none) ∧
    (∀ (mu m : String),
      load_data (some (ParseOutcome.failed mu)) (ParseOutcome.failed m) = none) ∧
    (∀ (u : Option ParseOutcome) (m : String),
      load_data u (ParseOutcome.failed m) = none →
      analysisRuns (load_data u (ParseOutcome.failed m)) = false) :=
  ⟨fun _ _ => rfl, fun _ _ => rfl, fun _ => rfl, fun _ => rfl, fun _ _ => rfl,
   fun _ _ h => by rw [h]; rfl⟩

/-- Claim C7 witness: a failed upload parse falls through to a successful
remote load. -/
theorem claim7_witness :
    load_data (some (ParseOutcome.failed "bad csv")) (ParseOutcome.parsed exFrame)
      = some exFrame := by
  rw [claim7_loader.2.1 "bad csv" (ParseOutcome.parsed exFrame)]
  exact claim7_loader.2.2.1 exFrame

theorem getCol_of_rows_nil (f : Frame) (h : f.rows = []) (c : String) :
    getCol f c = [] := by
  unfold getCol
  rw [h]
  rfl

theorem corrOpt_nil : corrOpt [] [] = none := by
  simp [corrOpt, completePairs, pearson, ssq, listMean]

/-- Claim C3 counterexample: a selection that excludes every row yields a
valid zero-row frame, but the downstream metrics evaluate to NaN (none), an
undefined value rendered as the text nan, not to an insufficient-data
message. -/
theorem claim3_counterexample :
    (applyFilters c3Frame c3Sels).rows.length = 0 ∧
    meanOpt (examScores (applyFilters c3Frame c3Sels)) = none ∧
    passRate (examScores (applyFilters c3Frame c3Sels)) = none ∧
    minOpt (examScores (applyFilters c3Frame c3Sels)) = none ∧
    maxOpt (examScores (applyFilters c3Frame c3Sels)) = none := by decide

/-- Claim C3 amended: on a selection that excludes every row the pipeline
still returns a well-formed zero-row frame with the same columns, and no
metric computation raises: average, pass rate, min, max and every pairwise
correlation evaluate to NaN (none) and grouping to an empty table, rather
than to an insufficient-data message. -/
theorem claim3_empty_result (f : Frame) (sels : List (String × List Cell))
    (c c1 c2 : String) (h : (applyFilters f sels).rows = []) :
    (applyFilters f sels).rows.length = 0 ∧
    (applyFilters f sels).header = f.header ∧
    meanOpt (examScores (applyFilters f sels)) = none ∧
    passRate (examScores (applyFilters f sels)) = none ∧
    minOpt (examScores (applyFilters f sels)) = none ∧
    maxOpt (examScores (applyFilters f sels)) = none ∧
    groupMeans (applyFilters f sels) c = [] ∧
    corrOpt (numColOpt (applyFilters f sels) c1)
      (numColOpt (applyFilters f sels) c2) = none := by
  have hg : ∀ x, getCol (applyFilters f sels) x = [] :=
    fun x => getCol_of_rows_nil _ h x
  refine ⟨by rw [h]; rfl, applyFilters_header f sels, ?_, ?_, ?_, ?_, ?_, ?_⟩
  · simp [meanOpt, examScores, numColOpt, hg]
  · simp [passRate, examScores, numColOpt, hg]
  · simp [minOpt, examScores, numColOpt, hg]
  · simp [maxOpt, examScores, numColOpt, hg]
  · simp [groupMeans, groupKeysSorted, groupKeys, hg, List.insertionSort]
  · rw [numColOpt, hg c1, numColOpt, hg c2]
    exact corrOpt_nil

/-- Claim C3 witness: the amended statement applied to the concrete
excluding selection. -/
theorem claim3_witness :
    groupMeans (applyFilters c3Frame c3Sels) "Gender" = [] :=
  (claim3_empty_result c3Frame c3Sels "Gender" "Exam_Score" "Exam_Score"
    (by decide)).2.2.2.2.2.2.1

theorem addPerformanceCategory_of_none (f : Frame)
    (h : colIdx f "Performance_Category" = none) :
    addPerformanceCategory f =
      { header := f.header ++ [("Performance_Category", ColType.text)],
        rows := List.zipWith (fun r lab => r ++ [Cell.str lab])
          f.rows ((examScores f).map categorizeCell) } := by
  unfold addPerformanceCategory
  rw [h]

theorem labels_length (f : Frame) :
    ((examScores f).map categorizeCell).length = f.rows.length := by
  simp [examScores, numColOpt, getCol]

theorem colIdx_addPerformanceCategory (f : Frame)
    (h : colIdx f "Performance_Category" = none) (c : String)
    (hc : c ≠ "Performance_Category") :
    colIdx (addPerformanceCategory f) c = colIdx f c := by
  rw [addPerformanceCategory_of_none f h]
  show List.findIdx? (fun p => p.1 == c)
      (f.header ++ [("Performance_Category", ColType.text)]) = colIdx f c
  rw [List.findIdx?_append]
  cases hf : List.findIdx? (fun p => p.1 == c) f.header with
  | some i => simp [colIdx, hf]
  | none =>
      have : ("Performance_Category" == c) = false := by
        simp only [beq_eq_false_iff_ne, ne_eq]
        exact fun hx => hc hx.symm
      simp [colIdx, hf, this]

theorem zipWith_append_getD (rows : List (List Cell)) (labs : List String)
    (i : Nat) (hlen : rows.length = labs.length)
    (hb : ∀ r ∈ rows, i < r.length) :
    (List.zipWith (fun r lab => r ++ [Cell.str lab]) rows labs).map
        (fun r => r.getD i Cell.null)
      = rows.map (fun r => r.getD i Cell.null) := by
  induction rows generalizing labs with
  | nil => simp
  | cons r t ih =>
    cases labs with
    | nil => simp at hlen
    | cons lab lt =>
      simp only [List.zipWith_cons_cons, List.map_cons]
      congr 1
      · exact List.getD_append _ _ _ _ (hb r (List.mem_cons_self _ _))
      · exact ih lt (by simpa using hlen) (fun x hx => hb x (List.mem_cons_of_mem _ hx))

theorem getCol_addPerformanceCategory (f : Frame) (hw : Wf f)
    (h : colIdx f "Performance_Category" = none) (c : String)
    (hc : c ≠ "Performance_Category") :
    getCol (addPerformanceCategory f) c = getCol f c := by
  have hidx := colIdx_addPerformanceCategory f h c hc
  have hrows : (addPerformanceCategory f).rows =
      List.zipWith (fun r lab => r ++ [Cell.str lab])
        f.rows ((examScores f).map categorizeCell) := by
    rw [addPerformanceCategory_of_none f h]
  unfold getCol rowCell
  rw [hidx, hrows]
  cases hfi : colIdx f c with
  | none =>
      simp only [hfi]
      have h1 : ∀ xs : List (List Cell),
          xs.map (fun _ => Cell.null) = List.replicate xs.length Cell.null := by
        intro xs
        induction xs with
        | nil => rfl
        | cons a t ih => simp [ih, List.replicate_succ]
      rw [h1, h1, List.length_zipWith, labels_length, Nat.min_self]
  | some i =>
      simp only [hfi]
      have hb : ∀ r ∈ f.rows, i < r.length := by
        intro r hr
        rw [hw r hr]
        have := List.findIdx?_eq_some_iff_getElem.mp hfi
        exact this.1
      exact zipWith_append_getD f.rows _ i (labels_length f).symm hb

/-- Claim C9 counterexample: on a frame whose source already has a column
named Performance_Category, the assignment overwrites that source column. -/
theorem claim9_counterexample :
    getCol c9Frame "Performance_Category" = [Cell.str "original"] ∧
    getCol (addPerformanceCategory c9Frame) "Performance_Category"
      = [Cell.str "Excellent (90-100)"] := by decide

/-- Claim C9 amended: the derivation runs on the filtered copy of the raw
frame, so the raw frame is untouched, and, provided the source frame has no
column named Performance_Category, the assignment appends a new last column,
keeps the row count, leaves every original column unchanged, and each new row
is the original row with one label cell appended. -/
theorem claim9_nondestructive (f : Frame) (hw : Wf f)
    (h : colIdx f "Performance_Category" = none) :
    (addPerformanceCategory f).header
      = f.header ++ [("Performance_Category", ColType.text)] ∧
    (addPerformanceCategory f).rows.length = f.rows.length ∧
    (∀ c : String, c ≠ "Performance_Category" →
      getCol (addPerformanceCategory f) c = getCol f c) ∧
    (addPerformanceCategory f).rows = List.zipWith (fun r lab => r ++ [Cell.str lab])
      f.rows ((examScores f).map categorizeCell) := by
  refine ⟨?_, ?_, ?_, ?_⟩
  · rw [addPerformanceCategory_of_none f h]
  · rw [addPerformanceCategory_of_none f h]
    show (List.zipWith _ f.rows _).length = f.rows.length
    rw [List.length_zipWith, labels_length, Nat.min_self]
  · intro c hc
    exact getCol_addPerformanceCategory f hw h c hc
  · rw [addPerformanceCategory_of_none f h]

/-- Claim C9 witness: the amended statement applied to a concrete frame
without a Performance_Category source column. -/
theorem claim9_witness :
    (addPerformanceCategory c9FrameOk).header
      = c9FrameOk.header ++ [("Performance_Category", ColType.text)] :=
  (claim9_nondestructive c9FrameOk (by unfold Wf; decide) (by decide)).1

theorem completePairs_swap (xs ys : List (Option ℚ)) :
    completePairs ys xs = (completePairs xs ys).map Prod.swap := by
  induction xs generalizing ys with
  | nil => cases ys <;> simp [completePairs]
  | cons x xt ih =>
    cases ys with
    | nil => simp [completePairs]
    | cons y yt =>
      cases x <;> cases y <;>
        simp only [completePairs, List.zip_cons_cons, List.filterMap_cons,
          List.map_cons, Prod.swap] at ih ⊢ <;>
        first
        | exact ih yt
        | exact congrArg _ (ih yt)

theorem sxy_swap (ps : List (ℚ × ℚ)) : sxy (ps.map Prod.swap) = sxy ps := by
  unfold sxy
  have h1 : (ps.map Prod.swap).map Prod.fst = ps.map Prod.snd := by
    simp [List.map_map, Function.comp_def]
  have h2 : (ps.map Prod.swap).map Prod.snd = ps.map Prod.fst := by
    simp [List.map_map, Function.comp_def]
  rw [h1, h2, List.map_map]
  congr 1
  congr 1
  funext p
  simp only [Function.comp_def, Prod.swap]
  ring

theorem pearson_swap (ps : List (ℚ × ℚ)) : pearson (ps.map Prod.swap) = pearson ps := by
  unfold pearson
  have h1 : (ps.map Prod.swap).map Prod.fst = ps.map Prod.snd := by
    simp [List.map_map, Function.comp_def]
  have h2 : (ps.map Prod.swap).map Prod.snd = ps.map Prod.fst := by
    simp [List.map_map, Function.comp_def]
  rw [h1, h2, sxy_swap]
  by_cases hx : ssq (ps.map Prod.fst) = 0 <;>
    by_cases hy : ssq (ps.map Prod.snd) = 0 <;>
    simp [hx, hy, mul_comm]

theorem corrOpt_symm (xs ys : List (Option ℚ)) : corrOpt xs ys = corrOpt ys xs := by
  unfold corrOpt
  rw [completePairs_swap xs ys, pearson_swap]

theorem completePairs_self (xs : List (Option ℚ)) :
    completePairs xs xs = (xs.filterMap id).map (fun a => (a, a)) := by
  induction xs with
  | nil => rfl
  | cons x t ih =>
    cases x <;>
      simp only [completePairs, List.zip_cons_cons, List.filterMap_cons, id,
        List.map_cons] at ih ⊢ <;>
      first
      | exact ih
      | exact congrArg _ ih

theorem ssq_nonneg (l : List ℚ) : 0 ≤ ssq l := by
  unfold ssq
  apply List.sum_nonneg
  intro x hx
  simp only [List.mem_map] at hx
  obtain ⟨a, _, rfl⟩ := hx
  positivity

theorem corrOpt_self (xs : List (Option ℚ)) (h : ssq (xs.filterMap id) ≠ 0) :
    corrOpt xs xs = some 1 := by
  unfold corrOpt
  rw [completePairs_self]
  have hfst : (((xs.filterMap id).map (fun a => (a, a))).map Prod.fst)
      = xs.filterMap id := by
    simp [List.map_map, Function.comp_def]
  have hsnd : (((xs.filterMap id).map (fun a => (a, a))).map Prod.snd)
      = xs.filterMap id := by
    simp [List.map_map, Function.comp_def]
  have hsxy : sxy ((xs.filterMap id).map (fun a => (a, a))) = ssq (xs.filterMap id) := by
    unfold sxy ssq
    rw [hfst, hsnd, List.map_map]
    congr 1
    congr 1
    funext a
    simp only [Function.comp_def]
    ring
  unfold pearson
  rw [hfst, hsnd, hsxy, if_neg (by simp [h])]
  congr 1
  rw [Real.mul_self_sqrt (by exact_mod_cast ssq_nonneg (xs.filterMap id))]
  rw [div_self (by exact_mod_cast h)]

/-- Claim C5 counterexample: c5Frame has two numerical factor columns, so the
source computes the correlation matrix on it, yet the diagonal entry of the
constant column X is NaN (none), not 1.0. -/
theorem claim5_counterexample :
    1 < (numericalFactorCols (applyFilters c5Frame [])).length ∧
    corrMatrixEntry (applyFilters c5Frame []) 0 0 = none := by
  constructor
  · decide
  · show corrMatrixEntry c5Frame 0 0 = none
    unfold corrMatrixEntry corrOpt
    have hcol : numColOpt c5Frame ((matrixCols c5Frame).getD 0 "")
        = [some 5, some 5] := by decide
    rw [hcol]
    have hcp : completePairs [some 5, some 5] [some 5, some 5]
        = [((5 : ℚ), (5 : ℚ)), (5, 5)] := by decide
    rw [hcp]
    unfold pearson
    rw [if_pos]
    exact Or.inl (by norm_num [ssq, listMean])

/-- Claim C5 amended: the correlation matrix of any filtered frame is
symmetric, and a diagonal entry equals 1.0 whenever its column has nonzero
centered sum of squares over its present values; a constant column or a
column with fewer than two observations gets NaN on the diagonal instead. -/
theorem claim5_matrix (f : Frame) (i j : Nat) :
    corrMatrixEntry f i j = corrMatrixEntry f j i ∧
    (ssq ((numColOpt f ((matrixCols f).getD i "")).filterMap id) ≠ 0 →
      corrMatrixEntry f i i = some 1) :=
  ⟨corrOpt_symm _ _, fun h => corrOpt_self _ h⟩

/-- Claim C5 witness: the diagonal entry of the non-constant column Y of
c5Frame is 1.0. -/
theorem claim5_witness : corrMatrixEntry c5Frame 1 1 = some 1 :=
  (claim5_matrix c5Frame 1 0).2 (by
    have : (numColOpt c5Frame ((matrixCols c5Frame).getD 1 "")).filterMap id
        = [1, 2] := by decide
    rw [this]
    norm_num [ssq, listMean])

theorem sortValuesBy_perm (r : (Nat × CorrEntry) → (Nat × CorrEntry) → Prop)
    [DecidableRel r] (l : List CorrEntry) : (sortValuesBy r l).Perm l := by
  unfold sortValuesBy
  have h1 := (List.perm_insertionSort r l.enum).map Prod.snd
  rwa [List.enum_map_snd] at h1

theorem indexOf_getElem_of_nodup (l : List CorrEntry) (hnd : l.Nodup) :
    ∀ (i : Nat) (h : i < l.length), l.indexOf (l.get ⟨i, h⟩) = i := by
  induction l with
  | nil => intro i h; exact absurd h (by simp)
  | cons a t ih =>
    obtain ⟨hna, hnt⟩ := List.nodup_cons.mp hnd
    intro i h
    cases i with
    | zero => simp [List.indexOf_cons, beq_self_eq_true]
    | succ n =>
      have hn : n < t.length := by simpa using h
      have hget : (a :: t).get ⟨n + 1, h⟩ = t.get ⟨n, hn⟩ := rfl
      have hne : (a == t.get ⟨n, hn⟩) = false :=
        beq_eq_false_iff_ne.mpr (fun he => hna (he ▸ List.get_mem t n hn))
      rw [hget, List.indexOf_cons, hne]
      have hrec := ih hnt n hn
      simp only [Bool.cond_false]
      rw [hrec]

theorem enum_mem_spec {l : List CorrEntry} {p : Nat × CorrEntry} (hp : p ∈ l.enum)
    (hnd : l.Nodup) : p.1 < l.length ∧ l.indexOf p.2 = p.1 := by
  obtain ⟨i, e⟩ := p
  rw [List.mk_mem_enum_iff_getElem?, List.getElem?_eq_some] at hp
  obtain ⟨h, he⟩ := hp
  refine ⟨h, ?_⟩
  rw [← he]
  exact indexOf_getElem_of_nodup l hnd i h

theorem sorted_sortValuesDesc (l : List CorrEntry) (hnd : l.Nodup) :
    (sortValuesDesc l).Sorted (rankDescRel l) := by
  unfold sortValuesDesc sortValuesBy
  rw [List.Sorted, List.pairwise_map]
  have hs := List.sorted_insertionSort descRelE l.enum
  have hmem : ∀ p ∈ List.insertionSort descRelE l.enum, p ∈ l.enum :=
    fun p hp => (List.perm_insertionSort descRelE l.enum).mem_iff.mp hp
  refine List.Pairwise.imp_of_mem ?_ hs
  rintro ⟨i, ea⟩ ⟨j, eb⟩ ha hb hab
  have hA := enum_mem_spec (hmem _ ha) hnd
  have hB := enum_mem_spec (hmem _ hb) hnd
  rcases hx : ea.2 with _ | x <;> rcases hy : eb.2 with _ | y
  · simp only [descRelE, hx, hy] at hab
    simp only [rankDescRel, hx, hy]
    rw [hA.2, hB.2]
    exact hab
  · simp only [descRelE, hx, hy] at hab
  · simp only [rankDescRel, hx, hy]
  · simp only [descRelE, hx, hy] at hab
    simp only [rankDescRel, hx, hy]
    rw [hA.2, hB.2]
    exact hab

theorem sorted_sortValuesAsc_of_sorted (l M : List CorrEntry)
    (hM : M.Sorted (rankDescRel l)) :
    (sortValuesAsc M).Sorted (rankAscRel l) := by
  unfold sortValuesAsc sortValuesBy
  rw [List.Sorted, List.pairwise_map]
  have hs := List.sorted_insertionSort ascRelE M.enum
  have hmem : ∀ p ∈ List.insertionSort ascRelE M.enum, p ∈ M.enum :=
    fun p hp => (List.perm_insertionSort ascRelE M.enum).mem_iff.mp hp
  refine List.Pairwise.imp_of_mem ?_ hs
  rintro ⟨i, ea⟩ ⟨j, eb⟩ ha hb hab
  obtain ⟨hAlt, hAe⟩ :=
    List.getElem?_eq_some.mp (List.mk_mem_enum_iff_getElem?.mp (hmem _ ha))
  obtain ⟨hBlt, hBe⟩ :=
    List.getElem?_eq_some.mp (List.mk_mem_enum_iff_getElem?.mp (hmem _ hb))
  have key : i ≤ j → rankDescRel l ea eb ∨ ea = eb := by
    intro hij
    rcases Nat.lt_or_ge i j with hlt | hge
    · left
      have h2 := (List.pairwise_iff_getElem.mp hM) i j hAlt hBlt hlt
      rwa [hAe, hBe] at h2
    · right
      have hij2 : i = j := le_antisymm hij hge
      subst hij2
      rw [← hAe, ← hBe]
  rcases hx : ea.2 with _ | x <;> rcases hy : eb.2 with _ | y
  · simp only [ascRelE, hx, hy] at hab
    simp only [rankAscRel, hx, hy]
    rcases key hab with hr | he
    · simpa only [rankDescRel, hx, hy] using hr
    · rw [he]
  · simp only [ascRelE, hx, hy] at hab
  · simp only [rankAscRel, hx, hy]
  · simp only [ascRelE, hx, hy] at hab
    simp only [rankAscRel, hx, hy]
    rcases hab with hlt | ⟨hxy, hij⟩
    · exact Or.inl hlt
    · rcases key hij with hr | he
      · simp only [rankDescRel, hx, hy] at hr
        rcases hr with hyx | ⟨hxy2, hidx⟩
        · subst hxy
          exact absurd hyx (lt_irrefl x)
        · exact Or.inr ⟨hxy, hidx⟩
      · rw [he]
        exact Or.inr ⟨hxy, le_refl _⟩

set_option maxRecDepth 400000 in
/-- The small-table regime embedding and the full introsort embedding of
the Insight Selector agree on the concrete 5-entry table, ties, negatives
and NaN included. -/
theorem np_agreement_5 :
    np_top_positive c8Table = top_positive c8Table ∧
    np_top_negative c8Table = top_negative c8Table := by decide

set_option maxRecDepth 400000 in
/-- The two embeddings also agree on a concrete 16-entry table, the largest
size of the stable regime, with ties among positives and negatives, a zero
and a NaN. -/
theorem np_agreement_16 :
    np_top_positive c8Mid = top_positive c8Mid ∧
    np_top_negative c8Mid = top_negative c8Mid := by decide

set_option maxRecDepth 400000 in
/-- Claim C8 counterexample: on the 17-entry table c8Big the program's sort
is numpy introsort past its stable insertion-sort regime.  Factors f0, f2
and f15 are tied at 4/5 with f0 first in column order, yet the top-three
positive list computed by the full embedding is f16, f15, f0 — the tie is
broken against column order (and f2 is cut although stable order would
rank it third), while the stable ranking the claim asserts would give f16,
f0, f2. -/
theorem claim8_counterexample :
    16 < c8Big.length ∧
    (c8Big.getD 0 ("", none)).2 = (c8Big.getD 15 ("", none)).2 ∧
    (np_top_positive c8Big).map Prod.fst = ["f16", "f15", "f0"] ∧
    (top_positive c8Big).map Prod.fst = ["f16", "f0", "f2"] := by decide

/-- Claim C8 amended: for correlation tables of at most 16 factors — the
regime in which numpy quicksort is its stable insertion-sort path, and the
regime of every table derived from the intended dataset of this dashboard —
the top-positive list is the first three of the entries with positive
correlation arranged in decreasing order of coefficient with ties in
original column order, and the top-negative list is the first three of the
entries with negative correlation arranged in increasing order (most
negative first) with ties in original column order; beyond 16 entries the
default sort gives no stability guarantee (see the counterexample).
Factor names of a dataframe are distinct.  The length bound scopes the
statement to where sortValuesBy is the realised sort; the stable embedding
itself satisfies the ranking at any length, so the bound is not otherwise
used by the proof. -/
theorem claim8_insight_selector (l : List CorrEntry)
    (hnd : (l.map Prod.fst).Nodup) (hlen : l.length ≤ 16) :
    (∃ ranked : List CorrEntry,
      ranked.Perm (l.filter (fun e => isPosB e.2)) ∧
      ranked.Sorted (rankDescRel l) ∧
      top_positive l = ranked.take 3) ∧
    (∃ ranked : List CorrEntry,
      ranked.Perm (l.filter (fun e => isNegB e.2)) ∧
      ranked.Sorted (rankAscRel l) ∧
      top_negative l = ranked.take 3) := by
  have hndl : l.Nodup := List.Nodup.of_map Prod.fst hnd
  constructor
  · refine ⟨(sortValuesDesc l).filter (fun e => isPosB e.2), ?_, ?_, rfl⟩
    · exact List.Perm.filter _ (sortValuesBy_perm descRelE l)
    · exact List.Pairwise.sublist (List.filter_sublist _)
        (sorted_sortValuesDesc l hndl)
  · refine ⟨sortValuesAsc ((sortValuesDesc l).filter (fun e => isNegB e.2)),
      ?_, ?_, rfl⟩
    · exact (sortValuesBy_perm ascRelE _).trans
        (List.Perm.filter _ (sortValuesBy_perm descRelE l))
    · exact sorted_sortValuesAsc_of_sorted l _
        (List.Pairwise.sublist (List.filter_sublist _)
          (sorted_sortValuesDesc l hndl))

/-- Claim C8 witness: the amended selector statement applied to a concrete
5-entry correlation table with a tie between the first two factors and a
NaN entry, both hypotheses discharged concretely. -/
theorem claim8_witness :
    ((c8Table.map Prod.fst).Nodup ∧ c8Table.length ≤ 16) ∧
    (∃ ranked : List CorrEntry,
      ranked.Perm (c8Table.filter (fun e => isPosB e.2)) ∧
      ranked.Sorted (rankDescRel c8Table) ∧
      top_positive c8Table = ranked.take 3) :=
  ⟨⟨by decide, by decide⟩,
   (claim8_insight_selector c8Table (by decide) (by decide)).1⟩

end StudentApp
